import Mathlib

/-
Verification of the validation-and-import pipeline of
`awesome-european-opensource` (src/scripts/validator.py, src/scripts/importer.py).

The Python code is shallowly embedded: dictionaries holding string leaves become
the inductive `JValue`, the mutable ledger `self.metadata` becomes the record
`Meta` threaded through each operation, the filesystem becomes the explicit
record `Fs`, and Python exceptions become `Except PyExn`.  The compiled JSON
schema (`self.schema_configuration`, loaded from a file outside the scripts)
is a parameter `schema : JValue → Option String` returning `none` on success
and the violation message otherwise, mirroring `fastjsonschema`'s behaviour of
raising `JsonSchemaException e` with `e.message`.
-/

namespace AEOS

/-- JSON-like values manipulated by the pipeline: every leaf produced by the
importer is a string, and every composite is a dict with string keys. -/
inductive JValue where
  | jstr (s : String)
  | jobj (fields : List (String × JValue))

abbrev JFields := List (String × JValue)

/-- First-match association lookup (Python dict keys are unique, so first match
is the only match). -/
def jlookup : JFields → String → Option JValue
  | [], _ => none
  | (k, v) :: rest, key => if k = key then some v else jlookup rest key

/-- Python truthiness of a value: empty string and empty dict are falsy. -/
def jTruthy : JValue → Bool
  | .jstr s => !s.data.isEmpty
  | .jobj fields => !fields.isEmpty

def jOptTruthy : Option JValue → Bool
  | none => false
  | some v => jTruthy v

def strOptTruthy : Option String → Bool
  | none => false
  | some s => !s.data.isEmpty

/-- Python exceptions that the embedded fragment can raise or record. -/
inductive PyExn where
  | valueError (msg : String)
  | keyError (key : String)
  | typeError (msg : String)
  | attributeError (msg : String)
  | jsonDecodeError (msg : String)
  | runtimeError (msg : String)
  | notADirectoryError (msg : String)
deriving DecidableEq

/-- Python `str(e)` of an exception, as used by the generic
`except Exception as e` handler in `Validator.validate`.  `str` of a
`KeyError` is the quoted key. -/
def pyStrExn : PyExn → String
  | .keyError k => "\x27" ++ k ++ "\x27"
  | .valueError m => m
  | .typeError m => m
  | .attributeError m => m
  | .jsonDecodeError m => m
  | .runtimeError m => m
  | .notADirectoryError m => m

/-- Python substring membership `needle in hay` for strings. -/
def substrIn (needle hay : List Char) : Bool :=
  (List.range (hay.length + 1)).any fun i => needle.isPrefixOf (hay.drop i)

/-- Python `key in value` for the values the validator tests: dict key
membership, or substring membership when the value is a string. -/
def pyIn (key : String) : JValue → Bool
  | .jobj fields => fields.any (fun kv => kv.1 == key)
  | .jstr s => substrIn key.data s.data

/-- Python subscription `value[key]`: `KeyError` on a missing dict key,
`TypeError` when subscripting a string with a string key. -/
def pySub (v : JValue) (key : String) : Except PyExn JValue :=
  match v with
  | .jobj fields =>
    match jlookup fields key with
    | some x => .ok x
    | none => .error (.keyError key)
  | .jstr _ => .error (.typeError "string indices must be integers")

/-- Fuel-bounded rendering of a dict, standing in for Python `repr`; the
fuel is never exhausted at the nesting depths the pipeline produces, and no
claim inspects this rendering. -/
def pyReprFuel : Nat → JValue → String
  | _, .jstr s => "\x27" ++ s ++ "\x27"
  | 0, .jobj _ => "\x7b...\x7d"
  | n + 1, .jobj fields =>
    let parts := fields.map fun kv =>
      "\x27" ++ kv.1 ++ "\x27: " ++ pyReprFuel n kv.2
    "\x7b" ++ String.intercalate ", " parts ++ "\x7d"

/-- Python `str(v)` as used when a value is interpolated into an f-string. -/
def pyStr : JValue → String
  | .jstr s => s
  | .jobj fields => pyReprFuel 32 (.jobj fields)

/-- One `{"name": ..., "message": ...}` record of the ledger.  The source
stores the raw entity-name value in the record; the embedding stores its
string rendering, which is all any consumer of the record uses. -/
structure Entry where
  name : String
  message : String
deriving DecidableEq

/-- The mutable ledger `self.metadata` of a `Validator` instance. -/
structure Meta where
  success : Nat
  failed : Nat
  warning : Nat
  total : Nat
  errors : List Entry
  warnings : List Entry
deriving DecidableEq

/-- `Validator.__init__`: all counters zero, both lists empty. -/
def initMeta : Meta :=
  { success := 0, failed := 0, warning := 0, total := 0, errors := [], warnings := [] }

/-- The `key == "errors"` arm of `Validator.save_state`. -/
def addError (st : Meta) (name message : String) : Meta :=
  { st with errors := st.errors ++ [⟨name, message⟩], failed := st.failed + 1 }

/-- The `key == "warnings"` arm of `Validator.save_state`. -/
def addWarning (st : Meta) (name message : String) : Meta :=
  { st with warnings := st.warnings ++ [⟨name, message⟩], warning := st.warning + 1 }

/-- `Validator.save_state`: appends an entry under the given key and bumps the
matching counter; any other key raises `ValueError`. -/
def save_state (st : Meta) (name message : String) (key : String) : Except PyExn Meta :=
  if key ≠ "errors" ∧ key ≠ "warnings" then
    .error (.valueError ("Unsupported key \x27" ++ key ++ "\x27 in save_state"))
  else if key = "errors" then .ok (addError st name message)
  else .ok (addWarning st name message)

/-- Contents of one stored file: either bytes that `json.load` decodes to a
document, or bytes that make it raise `JSONDecodeError`. -/
inductive FileContent where
  | jsonDoc (d : JValue)
  | junk (raw : String)

/-- The local filesystem: regular files with contents, existing directories,
and the `os.listdir` listing order of each directory (an entry of a directory
that is absent from `files` is a non-regular-file entry such as a
subdirectory). -/
structure Fs where
  files : List (String × FileContent)
  dirs : List String
  entries : List (String × String)

def fsLookup : List (String × FileContent) → String → Option FileContent
  | [], _ => none
  | (k, v) :: rest, key => if k = key then some v else fsLookup rest key

def fsRead (fs : Fs) (p : String) : Option FileContent :=
  fsLookup fs.files p

/-- `os.path.isfile`. -/
def fsIsFile (fs : Fs) (p : String) : Bool :=
  (fsRead fs p).isSome

/-- `os.path.isdir`. -/
def fsIsDir (fs : Fs) (p : String) : Bool :=
  fs.dirs.any (· == p)

/-- `os.listdir`. -/
def fsListDir (fs : Fs) (d : String) : List String :=
  fs.entries.filterMap fun e => if e.1 = d then some e.2 else none

def updateAssoc : List (String × α) → String → α → List (String × α)
  | [], k, v => [(k, v)]
  | (k0, v0) :: rest, k, v =>
    if k0 = k then (k0, v) :: rest else (k0, v0) :: updateAssoc rest k v

/-- `open(p, "w")` followed by a full write: creates the file or replaces its
contents. -/
def fsWrite (fs : Fs) (p : String) (c : FileContent) : Fs :=
  { fs with files := updateAssoc fs.files p c }

/-- `os.path.join` for the shapes the scripts build: an absolute second
component wins, otherwise the components are joined with exactly one slash. -/
def pyJoin (base p : String) : String :=
  if p.data.head? = some '/' then p
  else if base.data.getLast? = some '/' then base ++ p
  else base ++ "/" ++ p

/-- `os.path.relpath(p, base)` for the in-tree case the importer exercises
(`p` lying strictly under `base`); other cases are not reached by the
scripts' path arithmetic. -/
def pyRelpath (p base : String) : String :=
  if (base ++ "/").data.isPrefixOf p.data then
    String.mk (p.data.drop (base.data.length + 1))
  else p

/-- The compiled JSON schema `self.schema_configuration`: `none` when the
document conforms, otherwise the message of the raised
`JsonSchemaException`. -/
abbrev Schema := JValue → Option String

/-- Outcome of the statements of `Validator.validate` that precede its
`try` block (input checking and `json.load`). -/
inductive Resolved where
  | earlyReturn (res : Option JValue × Option (List Entry)) (st : Meta)
  | raised (e : PyExn) (st : Meta)
  | loaded (d : JValue) (st : Meta)

/-- Lines 107-118 of `Validator.validate`: the no-input `ValueError`, the
file-not-found warning early return `({}, None)`, and `json.load` of the
file (whose `JSONDecodeError` is raised *before* the `try` block and hence
escapes the method). -/
def resolveInput (fs : Fs) (filename : Option String) (data : Option JValue)
    (st : Meta) : Resolved :=
  if !strOptTruthy filename && !jOptTruthy data then
    .raised (.valueError "You must provide either filename or data") st
  else
    match filename with
    | some f =>
      if f.data.isEmpty then .loaded ((data.getD (.jobj []))) st
      else
        match fsRead fs f with
        | none =>
          .earlyReturn (some (.jobj []), none)
            (addWarning st f ("File not found: " ++ f))
        | some (.junk _) => .raised (.jsonDecodeError "Expecting value") st
        | some (.jsonDoc d) => .loaded d st
    | none => .loaded ((data.getD (.jobj []))) st

/-- `data.get("name", "Unknown")` rendered for the f-strings that consume it;
`AttributeError` when the loaded document is not a dict. -/
def pyGetName (d : JValue) : Except PyExn String :=
  match d with
  | .jobj fields => .ok (pyStr ((jlookup fields "name").getD (.jstr "Unknown")))
  | .jstr _ => .error (.attributeError "\x27str\x27 object has no attribute \x27get\x27")

/-- The duplicate-existence warning message of `Validator.validate`. -/
def dupWarningMsg (ename fname : String) : String :=
  "Entity \x27" ++ ename ++ "\x27 already exists. File: " ++ fname

/-- An exception caught inside the `try` block of `Validator.validate`:
recorded through `save_state`, and the whole accumulated `errors` list is
returned as the second component. -/
def errorReturn (ename msg : String) (st : Meta) :
    (Option JValue × Option (List Entry)) × Meta :=
  let st' := addError st ename msg
  ((none, some st'.errors), st')

/-- Lines 122-162 of `Validator.validate`: the `try` body (schema check and
duplicate-file check) together with its `except` handlers.  Every exception
raised inside the body is caught (`JsonSchemaException` first, then the
blanket `except Exception`), so this function is total. -/
def validateTry (schema : Schema) (root : String) (fs : Fs)
    (check_file_exists : Bool) (data : JValue) (ename : String) (st : Meta) :
    (Option JValue × Option (List Entry)) × Meta :=
  match schema data with
  | some emsg => errorReturn ename emsg st
  | none =>
    if check_file_exists && pyIn "metadata" data then
      match pySub data "metadata" with
      | .error e => errorReturn ename (pyStrExn e) st
      | .ok md =>
        if pyIn "filepath" md then
          match pySub md "filepath" with
          | .error e => errorReturn ename (pyStrExn e) st
          | .ok (.jobj _) =>
            -- os.path.join raises TypeError on a non-path second argument
            errorReturn ename "expected str, bytes or os.PathLike object, not dict" st
          | .ok (.jstr relative_filepath) =>
            if fsIsFile fs (pyJoin root relative_filepath) then
              match pySub data "metadata" with
              | .error e => errorReturn ename (pyStrExn e) st
              | .ok md2 =>
                match pySub md2 "filename" with
                | .error e => errorReturn ename (pyStrExn e) st
                | .ok fn =>
                  ((some data, none), addWarning st ename (dupWarningMsg ename (pyStr fn)))
            else ((some data, none), { st with success := st.success + 1 })
        else ((some data, none), { st with success := st.success + 1 })
    else ((some data, none), { st with success := st.success + 1 })

/-- `Validator.validate` (lines 87-165).  Returns the Python return value (or
the escaping exception) paired with the ledger after the call.  The
`finally: total += 1` clause belongs to the `try` block, so it fires exactly
when the `try` block was entered. -/
def validate (schema : Schema) (root : String) (fs : Fs)
    (filename : Option String) (data : Option JValue) (check_file_exists : Bool)
    (st : Meta) : Except PyExn (Option JValue × Option (List Entry)) × Meta :=
  match resolveInput fs filename data st with
  | .raised e st' => (.error e, st')
  | .earlyReturn res st' => (.ok res, st')
  | .loaded d st' =>
    match pyGetName d with
    | .error e => (.error e, st')
    | .ok ename =>
      let (res, st'') := validateTry schema root fs check_file_exists d ename st'
      (.ok res, { st'' with total := st''.total + 1 })

/-- `entry.endswith(".json")`. -/
def pyEndsWith (s suffix : String) : Bool :=
  suffix.data.isSuffixOf s.data

/-- Left-to-right non-overlapping replacement, as Python `str.replace` with a
non-empty pattern; the fuel is the input length, which the scan never
exhausts. -/
def replaceChars (pat repl : List Char) : Nat → List Char → List Char
  | _, [] => []
  | 0, l => l
  | fuel + 1, c :: cs =>
    if !pat.isEmpty && pat.isPrefixOf (c :: cs) then
      repl ++ replaceChars pat repl fuel ((c :: cs).drop pat.length)
    else c :: replaceChars pat repl fuel cs

def pyReplace (s pat repl : String) : String :=
  String.mk (replaceChars pat.data repl.data s.data.length s.data)

/-- The collection loop of `Validator.execute` (lines 185-202): per entry,
warn and skip non-files and non-`.json` names, otherwise keep
`(entity_id, filepath)`. -/
def collectFiles (fs : Fs) (dirpath : String) :
    List String → Meta → List (String × String) × Meta
  | [], st => ([], st)
  | entry :: rest, st =>
    let filepath := pyJoin dirpath entry
    if !fsIsFile fs filepath then
      collectFiles fs dirpath rest (addWarning st entry "Not a file")
    else if !pyEndsWith entry ".json" then
      collectFiles fs dirpath rest
        (addWarning st entry "Invalid file extension (expected .json)")
    else
      let (others, st') := collectFiles fs dirpath rest st
      ((pyReplace entry ".json" "", filepath) :: others, st')

/-- Code-point lexicographic `≤` on strings, the order Python `sorted` uses
on the `entity_id` keys. -/
def lexLeChars : List Char → List Char → Bool
  | [], _ => true
  | _ :: _, [] => false
  | a :: as, b :: bs =>
    if a.toNat < b.toNat then true
    else if b.toNat < a.toNat then false
    else lexLeChars as bs

def insertSorted (x : String × String) :
    List (String × String) → List (String × String)
  | [] => [x]
  | y :: ys =>
    if lexLeChars y.1.data x.1.data then y :: insertSorted x ys else x :: y :: ys

/-- Stable ascending sort by the first component, as
`sorted(json_files, key=lambda x: x[0])`. -/
def pySorted (l : List (String × String)) : List (String × String) :=
  l.foldl (fun acc x => insertSorted x acc) []

/-- The validation loop of `Validator.execute` (lines 205-210): validates each
collected file with `check_file_exists=False`; an exception escaping
`validate` aborts the loop (there is no handler in `execute`); truthy results
are recorded into `source_data`. -/
def validateLoop (schema : Schema) (root : String) (fs : Fs) :
    List (String × String) → Meta → List (String × JValue) →
    Except PyExn Unit × Meta × List (String × JValue)
  | [], st, src => (.ok (), st, src)
  | (entity_id, filepath) :: rest, st, src =>
    match validate schema root fs (some filepath) none false st with
    | (.error e, st') => (.error e, st', src)
    | (.ok (vd, _), st') =>
      let src' :=
        match vd with
        | some d => if jTruthy d then updateAssoc src entity_id d else src
        | none => src
      validateLoop schema root fs rest st' src'

/-- `Validator.execute` (lines 167-212). -/
def execute (schema : Schema) (root : String) (fs : Fs) (dirpath : String)
    (st : Meta) (src : List (String × JValue)) :
    Except PyExn Unit × Meta × List (String × JValue) :=
  if !fsIsDir fs dirpath then
    (.error (.notADirectoryError ("Directory not found: " ++ dirpath)), st, src)
  else
    let (jsonFiles, st1) := collectFiles fs dirpath (fsListDir fs dirpath) st
    validateLoop schema root fs (pySorted jsonFiles) st1 src

/-! ## Text sanitizers and slug generation (importer.py lines 26-117) -/

/-- The external `unicodedata`-backed primitives the sanitizers call:
`normalize("NFKC", ·)`, `normalize("NFD", ·)`, the two category tests the
code performs, and the `\w` regex class of `re.UNICODE`.  The slug-safety
theorems hold for every choice of these primitives; concrete evaluations use
`asciiU` below. -/
structure UnicodeLib where
  nfkc : String → String
  nfd : String → String
  catC : Char → Bool
  catMn : Char → Bool
  isWord : Char → Bool

/-- The character class of the regex `\s` (and of `str.strip()`/`str.isspace`):
ASCII whitespace controls plus the Unicode whitespace code points. -/
def isPySpace (c : Char) : Bool :=
  c = ' ' || c = '\t' || c = '\n' || c = '\r' ||
  c.toNat = 0x0b || c.toNat = 0x0c ||
  c.toNat = 0x1c || c.toNat = 0x1d || c.toNat = 0x1e || c.toNat = 0x1f ||
  c.toNat = 0x85 || c.toNat = 0xa0 || c.toNat = 0x1680 ||
  (0x2000 ≤ c.toNat && c.toNat ≤ 0x200a) ||
  c.toNat = 0x2028 || c.toNat = 0x2029 ||
  c.toNat = 0x202f || c.toNat = 0x205f || c.toNat = 0x3000

/-- `re.sub("[class]+", r, s)`: replace every maximal run of class characters
by the single character `r`.  Used only with `p r = true`, under which the
merge of adjacent runs below is exact. -/
def collapseRuns (p : Char → Bool) (r : Char) : List Char → List Char
  | [] => []
  | c :: cs =>
    if p c then
      (if (collapseRuns p r cs).head? = some r then collapseRuns p r cs
       else r :: collapseRuns p r cs)
    else c :: collapseRuns p r cs

/-- Strip characters satisfying `p` from both ends, as Python `str.strip`. -/
def stripWhile (p : Char → Bool) (l : List Char) : List Char :=
  ((l.dropWhile p).reverse.dropWhile p).reverse

/-- `sanitize_text` (importer.py lines 56-82). -/
def sanitize_text (U : UnicodeLib) (value : String) : String :=
  let normalized := U.nfkc value
  let normalized :=
    pyReplace (pyReplace (pyReplace (pyReplace (pyReplace (pyReplace
      normalized "\\t" " ") "\\n" " ") "\\r" " ") "\t" " ") "\n" " ") "\r" " "
  let normalized := String.mk (normalized.data.filter fun c => !U.catC c)
  String.mk (stripWhile isPySpace (collapseRuns isPySpace ' ' normalized.data))

/-- `sanitize_name` (importer.py lines 85-89): restrict to
`[\w\s\-\.'&]` then re-collapse whitespace. -/
def sanitize_name (U : UnicodeLib) (value : String) : String :=
  let normalized := sanitize_text U value
  let normalized := String.mk (normalized.data.filter fun c =>
    U.isWord c || isPySpace c || c = '-' || c = '.' || c = '\x27' || c = '&')
  String.mk (stripWhile isPySpace (collapseRuns isPySpace ' ' normalized.data))

/-- The punctuation allow-list of `sanitize_description`. -/
def isDescPunct (c : Char) : Bool :=
  "-.,;:!?()\x27\"/&".data.contains c

/-- `sanitize_description` (importer.py lines 92-101). -/
def sanitize_description (U : UnicodeLib) (value : String) : String :=
  let normalized := sanitize_text U value
  let normalized := String.mk (normalized.data.filter fun c =>
    U.isWord c || isPySpace c || isDescPunct c)
  String.mk (stripWhile isPySpace (collapseRuns isPySpace ' ' normalized.data))

/-- Python `str.lower`, faithful on the ASCII range the slug pipeline reaches
at its call sites. -/
def pyToLower (c : Char) : Char :=
  if 65 ≤ c.toNat ∧ c.toNat ≤ 90 then Char.ofNat (c.toNat + 32) else c

def pyLower (s : String) : String :=
  String.mk (s.data.map pyToLower)

/-- The regex class `[a-zA-Z0-9]`. -/
def isAsciiAlnum (c : Char) : Bool :=
  (65 ≤ c.toNat && c.toNat ≤ 90) || (97 ≤ c.toNat && c.toNat ≤ 122) ||
  (48 ≤ c.toNat && c.toNat ≤ 57)

/-- The keep-class of `re.sub(r"[^a-zA-Z0-9\s-]", "", ...)`. -/
def slugKeep (c : Char) : Bool :=
  isAsciiAlnum c || isPySpace c || c = '-'

/-- The separator class of `re.sub(r"[\s_-]+", "-", ...)`. -/
def slugSep (c : Char) : Bool :=
  isPySpace c || c = '_' || c = '-'

/-- `normalize_name` (importer.py lines 26-53). -/
def normalize_name (U : UnicodeLib) (name : String) : String :=
  let normalized_name := sanitize_name U name
  let name_without_accents :=
    String.mk ((U.nfd normalized_name).data.filter fun c => !U.catMn c)
  let slug_base := String.mk (name_without_accents.data.filter slugKeep)
  let slug_base := String.mk (stripWhile (fun c => c = '-')
    (collapseRuns slugSep '-' slug_base.data))
  if slug_base.data.isEmpty then "entity"
  else pyLower slug_base

/-- The `unicodedata` primitives restricted to ASCII inputs, on which NFKC and
NFD are the identity, the only category-C characters are the controls, there
are no combining marks, and `\w` is `[a-zA-Z0-9_]`.  All concrete inputs in
this development are ASCII. -/
def asciiU : UnicodeLib where
  nfkc := id
  nfd := id
  catC := fun c => c.toNat < 0x20 || c.toNat = 0x7f
  catMn := fun _ => false
  isWord := fun c => c.isAlphanum || c = '_'

/-! ## SHA-256 (the `hashlib.sha256` call of `generate_filename`),
over byte lists with Nat arithmetic mod 2^32. -/

def M32 : Nat := 4294967296

def rotr32 (n x : Nat) : Nat :=
  ((x >>> n) ||| (x <<< (32 - n))) % M32

def shaK : List Nat :=
  [1116352408, 1899447441, 3049323471, 3921009573, 961987163,
   1508970993, 2453635748, 2870763221, 3624381080, 310598401,
   607225278, 1426881987, 1925078388, 2162078206, 2614888103,
   3248222580, 3835390401, 4022224774, 264347078, 604807628,
   770255983, 1249150122, 1555081692, 1996064986, 2554220882,
   2821834349, 2952996808, 3210313671, 3336571891, 3584528711,
   113926993, 338241895, 666307205, 773529912, 1294757372,
   1396182291, 1695183700, 1986661051, 2177026350, 2456956037,
   2730485921, 2820302411, 3259730800, 3345764771, 3516065817,
   3600352804, 4094571909, 275423344, 430227734, 506948616,
   659060556, 883997877, 958139571, 1322822218, 1537002063,
   1747873779, 1955562222, 2024104815, 2227730452, 2361852424,
   2428436474, 2756734187, 3204031479, 3329325298]

structure Sha8 where
  a : Nat
  b : Nat
  c : Nat
  d : Nat
  e : Nat
  f : Nat
  g : Nat
  h : Nat
deriving DecidableEq

def shaInit : Sha8 :=
  ⟨1779033703, 3144134277, 1013904242, 2773480762,
   1359893119, 2600822924, 528734635, 1541459225⟩

/-- SHA-256 padding: append 0x80, zeros to 56 mod 64, 8-byte big-endian bit
length. -/
def shaPad (msg : List Nat) : List Nat :=
  let len := msg.length
  let zeros := (55 + 64 - len % 64) % 64
  let bitLen := len * 8
  msg ++ [0x80] ++ List.replicate zeros 0 ++
    (List.range 8).map (fun i => (bitLen >>> ((7 - i) * 8)) % 256)

/-- Group bytes into 32-bit big-endian words. -/
def shaWords : List Nat → List Nat
  | b0 :: b1 :: b2 :: b3 :: rest => (((b0 * 256 + b1) * 256 + b2) * 256 + b3) :: shaWords rest
  | _ => []

def shaSchedStep (w : List Nat) (i : Nat) : Nat :=
  let w15 := w.getD (i - 15) 0
  let w2 := w.getD (i - 2) 0
  let s0 := (rotr32 7 w15) ^^^ (rotr32 18 w15) ^^^ (w15 >>> 3)
  let s1 := (rotr32 17 w2) ^^^ (rotr32 19 w2) ^^^ (w2 >>> 10)
  (w.getD (i - 16) 0 + s0 + w.getD (i - 7) 0 + s1) % M32

def shaSchedule (w : List Nat) : Nat → List Nat
  | 0 => w
  | n + 1 =>
    let w' := shaSchedule w n
    w' ++ [shaSchedStep w' (16 + n)]

def shaRound (st : Sha8) (k w : Nat) : Sha8 :=
  let s1 := (rotr32 6 st.e) ^^^ (rotr32 11 st.e) ^^^ (rotr32 25 st.e)
  let ch := (st.e &&& st.f) ^^^ ((st.e ^^^ (M32 - 1)) &&& st.g)
  let t1 := (st.h + s1 + ch + k + w) % M32
  let s0 := (rotr32 2 st.a) ^^^ (rotr32 13 st.a) ^^^ (rotr32 22 st.a)
  let maj := (st.a &&& st.b) ^^^ (st.a &&& st.c) ^^^ (st.b &&& st.c)
  let t2 := (s0 + maj) % M32
  ⟨(t1 + t2) % M32, st.a, st.b, st.c, (st.d + t1) % M32, st.e, st.f, st.g⟩

def shaCompress (h : Sha8) (block : List Nat) : Sha8 :=
  let w := shaSchedule block 48
  let st := (shaK.zip w).foldl (fun st kw => shaRound st kw.1 kw.2) h
  ⟨(h.a + st.a) % M32, (h.b + st.b) % M32, (h.c + st.c) % M32, (h.d + st.d) % M32,
   (h.e + st.e) % M32, (h.f + st.f) % M32, (h.g + st.g) % M32, (h.h + st.h) % M32⟩

def chunk16 : Nat → List Nat → List (List Nat)
  | 0, _ => []
  | n + 1, l => l.take 16 :: chunk16 n (l.drop 16)

def shaBlocks (bytes : List Nat) : List (List Nat) :=
  let words := shaWords (shaPad bytes)
  chunk16 (words.length / 16) words

def sha256Words (bytes : List Nat) : Sha8 :=
  (shaBlocks bytes).foldl shaCompress shaInit

def hexDigitChar (n : Nat) : Char :=
  if n < 10 then Char.ofNat (48 + n) else Char.ofNat (87 + n)

def toHex8 (w : Nat) : List Char :=
  (List.range 8).map (fun i => hexDigitChar ((w >>> (28 - 4 * i)) % 16))

/-- `hashlib.sha256(bytes).hexdigest()` as a character list. -/
def sha256HexList (bytes : List Nat) : List Char :=
  let h := sha256Words bytes
  toHex8 h.a ++ toHex8 h.b ++ toHex8 h.c ++ toHex8 h.d ++
  toHex8 h.e ++ toHex8 h.f ++ toHex8 h.g ++ toHex8 h.h

/-- UTF-8 encoding of one character, as Python `str.encode()`. -/
def utf8EncodeChar (c : Char) : List Nat :=
  let n := c.toNat
  if n < 0x80 then [n]
  else if n < 0x800 then [0xC0 + n / 0x40, 0x80 + n % 0x40]
  else if n < 0x10000 then
    [0xE0 + n / 0x1000, 0x80 + (n / 0x40) % 0x40, 0x80 + n % 0x40]
  else
    [0xF0 + n / 0x40000, 0x80 + (n / 0x1000) % 0x40, 0x80 + (n / 0x40) % 0x40, 0x80 + n % 0x40]

def utf8Bytes (s : String) : List Nat :=
  s.data.flatMap utf8EncodeChar

/-- The first six hexdigest characters used as the disambiguation suffix
(importer.py line 116). -/
def hashSuffix (U : UnicodeLib) (name unique_identifier : String) : String :=
  String.mk ((sha256HexList (utf8Bytes
    (normalize_name U name ++ ":" ++ unique_identifier))).take 6)

/-- `generate_filename` (importer.py lines 104-117). -/
def generate_filename (U : UnicodeLib) (name unique_identifier : String) : String :=
  let normalized_name := normalize_name U name
  normalized_name ++ "-" ++ hashSuffix U name unique_identifier ++ ".json"

/-! ## Timestamps (importer.py lines 120-126) -/

/-- A `datetime.now(UTC)` value: an aware UTC datetime. -/
structure PyDatetime where
  year : Nat
  month : Nat
  day : Nat
  hour : Nat
  minute : Nat
  second : Nat
  microsecond : Nat
deriving DecidableEq

def digitChar (d : Nat) : Char :=
  Char.ofNat (48 + d % 10)

def natToChars (fuel n : Nat) : List Char :=
  match fuel with
  | 0 => []
  | f + 1 => if n < 10 then [digitChar n] else natToChars f (n / 10) ++ [digitChar (n % 10)]

/-- Decimal rendering of `n` left-padded with zeros to width `w`. -/
def padNum (w n : Nat) : String :=
  let s := natToChars 20 n
  String.mk (List.replicate (w - s.length) '0' ++ s)

/-- `datetime.isoformat()` of an aware UTC datetime: the fractional part is
present exactly when the microsecond component is nonzero, and the offset
renders as `+00:00`. -/
def isoformat (t : PyDatetime) : String :=
  padNum 4 t.year ++ "-" ++ padNum 2 t.month ++ "-" ++ padNum 2 t.day ++ "T" ++
  padNum 2 t.hour ++ ":" ++ padNum 2 t.minute ++ ":" ++ padNum 2 t.second ++
  (if t.microsecond = 0 then "" else "." ++ padNum 6 t.microsecond) ++ "+00:00"

/-- Python slicing `s[:-13]`. -/
def pyDropRight (s : String) (n : Nat) : String :=
  String.mk (s.data.take (s.data.length - n))

/-- `get_timestamp` (importer.py lines 120-126): `isoformat()[:-13] + "Z"`,
evaluated at the current time `t`. -/
def get_timestamp (t : PyDatetime) : String :=
  pyDropRight (isoformat t) 13 ++ "Z"

/-! ## The importer (importer.py lines 194-333) -/

/-- One CSV row as produced by `csv.DictReader`: header name to raw value. -/
abbrev Row := List (String × String)

def rowLookup : Row → String → Option String
  | [], _ => none
  | (k, v) :: rest, key => if k = key then some v else rowLookup rest key

/-- `row[key]`: `KeyError` on a missing column. -/
def rowSub (row : Row) (key : String) : Except PyExn String :=
  match rowLookup row key with
  | some v => .ok v
  | none => .error (.keyError key)

/-- `row.get(key)`. -/
def rowGet (row : Row) (key : String) : Option String :=
  rowLookup row key

/-- `row.get(key, dflt)`. -/
def rowGetD (row : Row) (key dflt : String) : String :=
  (rowLookup row key).getD dflt

/-- In-place update of a dict-valued field of a dict, as
`project_data["source"]["url_documentation"] = ...`.  The importer only ever
updates dict-valued keys, so the string branch is unreachable. -/
def jSetIn (fields : JFields) (outer inner : String) (v : JValue) : JFields :=
  fields.map fun kv =>
    if kv.1 = outer then
      (kv.1, match kv.2 with
        | .jobj fs => .jobj (updateAssoc fs inner v)
        | .jstr s => .jstr s)
    else kv

namespace Importer

/-- `ProjectImporter._build_owner_data` (importer.py lines 241-282). -/
def build_owner_data (U : UnicodeLib) (row : Row) : Except PyExn JValue := do
  let owner_type := sanitize_text U (← rowSub row "Who is the owner of this project?")
  if owner_type = "Organization" then
    let companyName ← rowSub row "Company Name"
    let website ← rowSub row "Company Website"
    let isStartup ← rowSub row "Your company is a Startup?"
    let owner : JFields :=
      [("type", .jstr "organization"),
       ("name", .jstr (sanitize_name U companyName)),
       ("url_website", .jstr (sanitize_text U website)),
       ("is_a_startup", .jstr (sanitize_text U isStartup))]
    if strOptTruthy (rowGet row "Company Description") then
      .ok (.jobj (owner ++ [("description",
        .jstr (sanitize_description U (rowGetD row "Company Description" "")))]))
    else .ok (.jobj owner)
  else if owner_type = "Individual" then
    let fullName ← rowSub row "Owner Full Name or Username"
    .ok (.jobj [("type", .jstr "individual"), ("name", .jstr (sanitize_name U fullName))])
  else if owner_type = "Community" then
    let communityName ← rowSub row "Community Name"
    let website ← rowSub row "Community Website"
    let owner : JFields :=
      [("type", .jstr "community"),
       ("name", .jstr (sanitize_name U communityName)),
       ("url_website", .jstr (sanitize_text U website))]
    if strOptTruthy (rowGet row "Community Description") then
      .ok (.jobj (owner ++ [("description",
        .jstr (sanitize_description U (rowGetD row "Community Description" "")))]))
    else .ok (.jobj owner)
  else
    .error (.valueError ("Unknown owner type: " ++ owner_type))

/-- `ProjectImporter.transform_row` (importer.py lines 284-333).  `now` is the
current time read by the `get_timestamp()` call inside the metadata
literal. -/
def transform_row (U : UnicodeLib) (root output_dir : String) (now : PyDatetime)
    (row : Row) : Except PyExn JValue := do
  let name := sanitize_name U (← rowSub row "Name")
  let repository_url := sanitize_text U (← rowSub row "Repository url")
  let filename := generate_filename U name repository_url
  let absolute_filepath := pyJoin output_dir filename
  let relative_filepath := pyRelpath absolute_filepath root
  let category ← rowSub row "Category"
  let country ← rowSub row "Country"
  let platform ← rowSub row "Platform"
  let license ← rowSub row "License"
  let language ← rowSub row "Language"
  let project_data : JFields :=
    [("name", .jstr name),
     ("category", .jstr (pyLower (sanitize_text U category))),
     ("country", .jstr (sanitize_text U country)),
     ("description", .jstr (sanitize_description U (rowGetD row "Description" ""))),
     ("source", .jobj
       [("platform", .jstr (sanitize_text U platform)),
        ("url_repository", .jstr repository_url),
        ("license", .jstr (sanitize_text U license)),
        ("language", .jstr (sanitize_text U language))]),
     ("metadata", .jobj
       [("filename", .jstr filename),
        ("filepath", .jstr relative_filepath),
        ("created_at", .jstr (get_timestamp now))])]
  let project_data :=
    if strOptTruthy (rowGet row "Documentation url") then
      jSetIn project_data "source" "url_documentation"
        (.jstr (sanitize_text U (rowGetD row "Documentation url" "")))
    else project_data
  let owner ← build_owner_data U row
  .ok (.jobj (updateAssoc project_data "owner" owner))

def errsTruthy : Option (List Entry) → Bool
  | none => false
  | some l => !l.isEmpty

/-- The per-row body of `Importer.execute` (importer.py lines 198-226):
transform, validate (fail-fast on recorded errors, propagating a
`RuntimeError`), and persist the validated document at its computed absolute
destination.  The `except ... raise` wrapper re-raises every exception, so
failures abort the loop with the filesystem and ledger as they stand. -/
def executeLoop (U : UnicodeLib) (schema : Schema) (root output_dir : String)
    (clock : Nat → PyDatetime) :
    List Row → Nat → Fs → Meta → Except PyExn Unit × Fs × Meta
  | [], _, fs, st => (.ok (), fs, st)
  | row :: rest, i, fs, st =>
    match transform_row U root output_dir (clock i) row with
    | .error e => (.error e, fs, st)
    | .ok entity_data =>
      match pySub entity_data "name" with
      | .error e => (.error e, fs, st)
      | .ok entity_name =>
        match validate schema root fs none (some entity_data) true st with
        | (.error e, st') => (.error e, fs, st')
        | (.ok (vd, errs), st') =>
          if errsTruthy errs then
            (.error (.runtimeError ("Validation failed for " ++ pyStr entity_name)), fs, st')
          else
            match vd with
            | none =>
              (.error (.typeError "\x27NoneType\x27 object is not subscriptable"), fs, st')
            | some d =>
              match pySub d "metadata" with
              | .error e => (.error e, fs, st')
              | .ok md =>
                match pySub md "filepath" with
                | .error e => (.error e, fs, st')
                | .ok (.jobj _) =>
                  (.error (.typeError "expected str, bytes or os.PathLike object, not dict"), fs, st')
                | .ok (.jstr rel) =>
                  let fs' := fsWrite fs (pyJoin root rel) (.jsonDoc d)
                  executeLoop U schema root output_dir clock rest (i + 1) fs' st'

/-- `Importer.execute`, with the already-loaded CSV rows and a clock giving
the wall time observed while processing row `i`. -/
def execute (U : UnicodeLib) (schema : Schema) (root output_dir : String)
    (clock : Nat → PyDatetime) (rows : List Row) (fs : Fs) (st : Meta) :
    Except PyExn Unit × Fs × Meta :=
  executeLoop U schema root output_dir clock rows 0 fs st

end Importer

/-! ## Operation sequences over one validator instance (for the ledger
invariant) -/

inductive VOp where
  | opValidate (filename : Option String) (data : Option JValue) (check : Bool)
  | opExecute (dirpath : String)
  | opSaveState (name message key : String)

structure VCtx where
  schema : Schema
  root : String
  fs : Fs

structure VState where
  meta : Meta
  src : List (String × JValue)

def initVState : VState := ⟨initMeta, []⟩

/-- Effect of one public validator operation on the instance state; a raised
exception leaves the state as it stood at the raise (Python mutations
persist). -/
def runOp (ctx : VCtx) (st : VState) : VOp → VState
  | .opValidate fn d chk =>
    { st with meta := (validate ctx.schema ctx.root ctx.fs fn d chk st.meta).2 }
  | .opExecute dir =>
    let r := execute ctx.schema ctx.root ctx.fs dir st.meta st.src
    { meta := r.2.1, src := r.2.2 }
  | .opSaveState n m k =>
    match save_state st.meta n m k with
    | .ok m' => { st with meta := m' }
    | .error _ => st

def runOps (ctx : VCtx) (ops : List VOp) (st : VState) : VState :=
  ops.foldl (runOp ctx) st

/-! ## Concrete scenario data shared by several theorems -/

/-- A directory `DIR` holding a text file, a `.json` file whose bytes do not
parse as JSON, and a schema-conformant `.json` file, listed in that order. -/
def c2fs : Fs :=
  { files := [("DIR/notes.txt", .jsonDoc (.jstr "notes")),
              ("DIR/bad.json", .junk "not json"),
              ("DIR/good.json", .jsonDoc (.jobj [("name", .jstr "Good")]))],
    dirs := ["DIR"],
    entries := [("DIR", "notes.txt"), ("DIR", "bad.json"), ("DIR", "good.json")] }

/-- A schema that accepts every document (the conformance hypothesis of the
scenarios; the real schema is external to the scripts). -/
def acceptAll : Schema := fun _ => none

/-! ## Claims -/

/-- C10: calling `Validator.validate` with no filename and the empty document
`{}` as `data` raises `ValueError` — the empty dict is falsy, so it is
treated as absent input rather than validated — and the ledger is returned
exactly as it was. -/
theorem C10_empty_data_valueerror (schema : Schema) (root : String) (fs : Fs)
    (check : Bool) (st : Meta) :
    validate schema root fs none (some (.jobj [])) check st =
      (.error (.valueError "You must provide either filename or data"), st) := rfl

/-- C7 (code bug): `get_timestamp` is `isoformat()[:-13] + "Z"`, which assumes
the 13-character tail `.ffffff+00:00`; when the clock's microsecond component
is zero, `isoformat` omits the fractional part and the slice truncates the
timestamp to a malformed 13-character string instead of the specified
`YYYY-MM-DDTHH:MM:SSZ` shape, which nonzero microseconds do produce. -/
theorem C7_timestamp_microsecond_zero :
    get_timestamp ⟨2025, 1, 2, 3, 4, 5, 0⟩ = "2025-01-02T0Z" ∧
    get_timestamp ⟨2025, 1, 2, 3, 4, 5, 123456⟩ = "2025-01-02T03:04:05Z" ∧
    ("2025-01-02T0Z" : String).data.length ≠ ("YYYY-MM-DDTHH:MM:SSZ" : String).data.length := by
  refine ⟨by decide, by decide, by decide⟩

/-- C2 (code bug): over a directory with one unparseable `.json` file, one
`.txt` file and one conformant `.json` file, `Validator.execute` does not
complete the pass with ledger 1 warning / 1 error / 1 success / total 3:
`json.load` sits before the `try` block of `validate`, so its
`JSONDecodeError` bypasses the method's `except json.JSONDecodeError` handler
(dead code) and aborts the whole directory walk, leaving only the
extension warning in the ledger and validating nothing. -/
theorem C2_parse_error_aborts_execute :
    execute acceptAll "ROOT" c2fs "DIR" initMeta [] =
      (.error (.jsonDecodeError "Expecting value"),
       { success := 0, failed := 0, warning := 1, total := 0, errors := [],
         warnings := [⟨"notes.txt", "Invalid file extension (expected .json)"⟩] },
       []) := rfl

/-- Neither branch of the `try` body nor any handler touches the `total`
counter; only the `finally` clause does. -/
theorem validateTry_total (schema : Schema) (root : String) (fs : Fs) (check : Bool)
    (d : JValue) (ename : String) (st : Meta) :
    (validateTry schema root fs check d ename st).2.total = st.total := by
  unfold validateTry errorReturn
  repeat' split
  all_goals simp [addError, addWarning]

/-- C1 (amended): `validate` increments `total` exactly once on every call
that enters the schema-checking `try` block — in particular on every
in-memory-document call, whatever its outcome — but the early return taken
when a filename names a missing file records a warning and returns `({},
None)` with `total` unchanged, because that return precedes the `try` whose
`finally` clause does the counting. -/
theorem C1_total_increment (schema : Schema) (root : String) (fs : Fs)
    (check : Bool) (st : Meta) (fields : JFields) (f : String)
    (hfields : fields ≠ []) (hf : f.data ≠ []) (hmiss : fsRead fs f = none) :
    (validate schema root fs none (some (.jobj fields)) check st).2.total = st.total + 1 ∧
    validate schema root fs (some f) none check st =
      (.ok (some (.jobj []), none), addWarning st f ("File not found: " ++ f)) ∧
    (addWarning st f ("File not found: " ++ f)).total = st.total := by
  obtain - | ⟨kv, rest⟩ := fields
  · exact absurd rfl hfields
  have hE : f.data.isEmpty = false := by
    cases h' : f.data with
    | nil => exact absurd h' hf
    | cons _ _ => rfl
  refine ⟨?_, ?_, rfl⟩
  · show (validateTry schema root fs check (.jobj (kv :: rest))
      (pyStr ((jlookup (kv :: rest) "name").getD (.jstr "Unknown"))) st).2.total + 1 =
      st.total + 1
    rw [validateTry_total]
  · simp only [validate, resolveInput, strOptTruthy, jOptTruthy, hE, hmiss,
      Bool.not_false, Bool.not_true, Bool.false_and]
    rfl

/-- C1 witness: the two hypothesis packages of `C1_total_increment`
discharged at concrete inputs. -/
theorem C1_total_increment_witness :
    (validate acceptAll "ROOT" c2fs none (some (.jobj [("name", .jstr "X")])) true
        initMeta).2.total = initMeta.total + 1 ∧
    validate acceptAll "ROOT" c2fs (some "nope") none true initMeta =
      (.ok (some (.jobj []), none), addWarning initMeta "nope" ("File not found: " ++ "nope")) ∧
    (addWarning initMeta "nope" ("File not found: " ++ "nope")).total = initMeta.total :=
  C1_total_increment acceptAll "ROOT" c2fs true initMeta _ _
    (List.cons_ne_nil _ _) (by decide) rfl

/-- C1 counterexample: it is not the case that every normally-returning call
to `validate` leaves `total` incremented by one — the file-not-found early
return records a warning yet leaves `total` untouched. -/
theorem C1_cex :
    ¬ (∀ (schema : Schema) (root : String) (fs : Fs) (filename : Option String)
        (data : Option JValue) (check : Bool) (st : Meta)
        (res : Option JValue × Option (List Entry)) (st' : Meta),
        validate schema root fs filename data check st = (.ok res, st') →
        st'.total = st.total + 1) := by
  intro h
  have h0 := h acceptAll "ROOT" c2fs (some "nope") none true initMeta
    (some (.jobj []), none) (addWarning initMeta "nope" "File not found: nope") rfl
  simp [addWarning, initMeta] at h0

theorem jlookup_any (l : JFields) (k : String) (v : JValue)
    (h : jlookup l k = some v) : l.any (fun kv => kv.1 == k) = true := by
  induction l with
  | nil => simp [jlookup] at h
  | cons kv rest ih =>
    obtain ⟨k0, v0⟩ := kv
    rw [show jlookup ((k0, v0) :: rest) k = if k0 = k then some v0 else jlookup rest k
      from rfl] at h
    by_cases hk : k0 = k
    · simp [hk]
    · rw [if_neg hk] at h
      simp [hk, ih h]

/-- Behaviour of the `try` body on a schema-conformant dict whose metadata
carries string-valued `filepath` and `filename`: a duplicate-existence
warning when the destination exists, a clean success otherwise. -/
theorem validateTry_conform (schema : Schema) (root : String) (fsys : Fs)
    (fields mfields : JFields) (nm fp fn : String) (st : Meta)
    (hschema : schema (.jobj fields) = none)
    (hmeta : jlookup fields "metadata" = some (.jobj mfields))
    (hfp : jlookup mfields "filepath" = some (.jstr fp))
    (hfn : jlookup mfields "filename" = some (.jstr fn)) :
    validateTry schema root fsys true (.jobj fields) nm st =
      if fsIsFile fsys (pyJoin root fp) then
        ((some (.jobj fields), none), addWarning st nm (dupWarningMsg nm fn))
      else ((some (.jobj fields), none), { st with success := st.success + 1 }) := by
  unfold validateTry
  rw [hschema]
  have hin : pyIn "metadata" (JValue.jobj fields) = true := jlookup_any _ _ _ hmeta
  have hin2 : pyIn "filepath" (JValue.jobj mfields) = true := jlookup_any _ _ _ hfp
  simp only [hin, Bool.and_self, if_true]
  rw [show pySub (JValue.jobj fields) "metadata" = .ok (.jobj mfields) by
    simp [pySub, hmeta]]
  simp only [hin2, if_true]
  rw [show pySub (JValue.jobj mfields) "filepath" = .ok (.jstr fp) by
    simp [pySub, hfp]]
  cases hdup : fsIsFile fsys (pyJoin root fp) with
  | true => simp [pySub, hmeta, hfn, pyStr, hdup]
  | false => simp [pySub, hdup]

/-- Modelled from the spec: the schema file `schemas/project.json` is not
under `src/scripts`, so the shape it imposes on conformant documents is taken
from the spec's data model — an `EntityDocument` carries a string `name` and
a `metadata` object with string-valued `filename`, `filepath` and
`created_at`.  This predicate is the fragment of that shape the validator's
duplicate check reads. -/
def specSchemaShape (fields mfields : JFields) (nm fp fn : String) : Prop :=
  jlookup fields "name" = some (.jstr nm) ∧
  jlookup fields "metadata" = some (.jobj mfields) ∧
  jlookup mfields "filepath" = some (.jstr fp) ∧
  jlookup mfields "filename" = some (.jstr fn)

/-- C4: on a schema-conformant document validated from memory, if the
declared destination `metadata.filepath` already exists the call still
returns `(document, None)` but appends exactly one duplicate warning and
bumps only the warning counter; if the destination does not exist the call
returns `(document, None)` and bumps only the success counter.  (`total`
rises by one either way.)  Conformance includes the presence of the
metadata fields per `specSchemaShape`. -/
theorem C4_duplicate_vs_success (schema : Schema) (root : String) (fsys : Fs)
    (st : Meta) (fields mfields : JFields) (nm fp fn : String)
    (hschema : schema (.jobj fields) = none)
    (hshape : specSchemaShape fields mfields nm fp fn) :
    (validate schema root fsys none (some (.jobj fields)) true st).1 =
      .ok (some (.jobj fields), none) ∧
    (fsIsFile fsys (pyJoin root fp) = true →
      (validate schema root fsys none (some (.jobj fields)) true st).2 =
        { addWarning st nm (dupWarningMsg nm fn) with total := st.total + 1 }) ∧
    (fsIsFile fsys (pyJoin root fp) = false →
      (validate schema root fsys none (some (.jobj fields)) true st).2 =
        { st with success := st.success + 1, total := st.total + 1 }) := by
  obtain ⟨hname, hmeta, hfp, hfn⟩ := hshape
  have hne : fields ≠ [] := by
    rintro rfl
    simp [jlookup] at hname
  obtain - | ⟨kv0, rest⟩ := fields
  · exact absurd rfl hne
  have hload : validate schema root fsys none (some (.jobj (kv0 :: rest))) true st =
      (let p := validateTry schema root fsys true (.jobj (kv0 :: rest))
        (pyStr ((jlookup (kv0 :: rest) "name").getD (.jstr "Unknown"))) st
       (.ok p.1, { p.2 with total := p.2.total + 1 })) := rfl
  rw [hload]
  simp only [hname, Option.getD_some, pyStr]
  rw [validateTry_conform schema root fsys _ mfields nm fp fn st hschema hmeta hfp hfn]
  cases hdup : fsIsFile fsys (pyJoin root fp) with
  | true => exact ⟨rfl, fun _ => rfl, fun hc => by simp [hdup] at hc⟩
  | false => exact ⟨rfl, fun hc => by simp [hdup] at hc, fun _ => rfl⟩

/-- The concrete document and filesystem exercising C4's duplicate branch. -/
def c4fields : JFields :=
  [("name", .jstr "X"),
   ("metadata", .jobj [("filename", .jstr "x-abc.json"),
                       ("filepath", .jstr "awesome/projects/x-abc.json")])]

def c4fs : Fs :=
  { files := [("ROOT/awesome/projects/x-abc.json", .jsonDoc (.jstr "old"))],
    dirs := [], entries := [] }

/-- C4 witness: the duplicate branch at a concrete document and filesystem. -/
theorem C4_duplicate_vs_success_witness :
    (validate acceptAll "ROOT" c4fs none (some (.jobj c4fields)) true initMeta).1 =
      .ok (some (.jobj c4fields), none) ∧
    (fsIsFile c4fs (pyJoin "ROOT" "awesome/projects/x-abc.json") = true →
      (validate acceptAll "ROOT" c4fs none (some (.jobj c4fields)) true initMeta).2 =
        { addWarning initMeta "X" (dupWarningMsg "X" "x-abc.json") with
            total := initMeta.total + 1 }) ∧
    (fsIsFile c4fs (pyJoin "ROOT" "awesome/projects/x-abc.json") = false →
      (validate acceptAll "ROOT" c4fs none (some (.jobj c4fields)) true initMeta).2 =
        { initMeta with success := initMeta.success + 1, total := initMeta.total + 1 }) :=
  C4_duplicate_vs_success acceptAll "ROOT" c4fs initMeta _ _ "X"
    "awesome/projects/x-abc.json" "x-abc.json" rfl ⟨rfl, rfl, rfl, rfl⟩

/-! ## Slug-safety lemmas (claim C6) -/

/-- Lowercase ASCII letter, digit, or hyphen: the character set the spec
allows in slugs. -/
def isSlugChar (c : Char) : Bool :=
  (97 ≤ c.toNat && c.toNat ≤ 122) || (48 ≤ c.toNat && c.toNat ≤ 57) || c = '-'

theorem toNat_ofNat_valid (n : Nat) (h : n < 55296) : (Char.ofNat n).toNat = n := by
  simp only [Char.ofNat, Nat.isValidChar]
  rw [dif_pos (Or.inl h)]
  rfl

theorem mem_dropWhile_imp {α} {p : α → Bool} {l : List α} {x : α}
    (h : x ∈ l.dropWhile p) : x ∈ l :=
  (List.dropWhile_sublist (l := l) p).subset h

theorem head?_dropWhile_false {α} (p : α → Bool) (l : List α) {x : α}
    (h : (l.dropWhile p).head? = some x) : p x = false := by
  induction l with
  | nil => simp at h
  | cons a l ih =>
    rw [List.dropWhile_cons] at h
    by_cases hp : p a
    · rw [if_pos hp] at h
      exact ih h
    · rw [if_neg hp] at h
      simp at h
      subst h
      simpa using hp

theorem getLast?_dropWhile_eq {α} (p : α → Bool) (l : List α)
    (hne : l.dropWhile p ≠ []) : (l.dropWhile p).getLast? = l.getLast? := by
  induction l with
  | nil => exact absurd rfl hne
  | cons a l ih =>
    rw [List.dropWhile_cons] at hne ⊢
    by_cases hp : p a
    · rw [if_pos hp] at hne ⊢
      rw [ih hne]
      cases l with
      | nil => simp [List.dropWhile] at hne
      | cons b m => simp
    · rw [if_neg hp]

theorem collapseRuns_mem {p : Char → Bool} {r : Char} {l : List Char} {x : Char}
    (h : x ∈ collapseRuns p r l) : x = r ∨ (x ∈ l ∧ p x = false) := by
  induction l with
  | nil => simp [collapseRuns] at h
  | cons c cs ih =>
    have hlift : x ∈ collapseRuns p r cs → x = r ∨ (x ∈ c :: cs ∧ p x = false) := by
      intro hx
      rcases ih hx with h1 | ⟨h2, h3⟩
      · exact Or.inl h1
      · exact Or.inr ⟨List.mem_cons_of_mem _ h2, h3⟩
    rw [show collapseRuns p r (c :: cs) =
        (if p c then
          (if (collapseRuns p r cs).head? = some r then collapseRuns p r cs
           else r :: collapseRuns p r cs)
         else c :: collapseRuns p r cs) from rfl] at h
    by_cases hp : p c
    · rw [if_pos hp] at h
      by_cases hh : (collapseRuns p r cs).head? = some r
      · rw [if_pos hh] at h
        exact hlift h
      · rw [if_neg hh] at h
        rcases List.mem_cons.mp h with h1 | h1
        · exact Or.inl h1
        · exact hlift h1
    · rw [if_neg hp] at h
      rcases List.mem_cons.mp h with h1 | h1
      · subst h1
        exact Or.inr ⟨List.mem_cons_self _ _, by simpa using hp⟩
      · exact hlift h1

theorem stripWhile_mem {p : Char → Bool} {l : List Char} {x : Char}
    (h : x ∈ stripWhile p l) : x ∈ l := by
  unfold stripWhile at h
  exact mem_dropWhile_imp (List.mem_reverse.mp (mem_dropWhile_imp (List.mem_reverse.mp h)))

theorem stripWhile_head {p : Char → Bool} {l : List Char} {x : Char}
    (h : (stripWhile p l).head? = some x) : p x = false := by
  unfold stripWhile at h
  rw [List.head?_reverse] at h
  have hne : (l.dropWhile p).reverse.dropWhile p ≠ [] := by
    intro h0
    rw [h0] at h
    simp at h
  rw [getLast?_dropWhile_eq _ _ hne, List.getLast?_reverse] at h
  exact head?_dropWhile_false p l h

theorem stripWhile_getLast {p : Char → Bool} {l : List Char} {x : Char}
    (h : (stripWhile p l).getLast? = some x) : p x = false := by
  unfold stripWhile at h
  rw [List.getLast?_reverse] at h
  exact head?_dropWhile_false p _ h

theorem head?_mem {α} {l : List α} {x : α} (h : l.head? = some x) : x ∈ l := by
  cases l with
  | nil => simp at h
  | cons a l =>
    simp at h
    subst h
    exact List.mem_cons_self _ _

theorem getLast?_mem {α} {l : List α} {x : α} (h : l.getLast? = some x) : x ∈ l := by
  rw [← List.head?_reverse] at h
  exact List.mem_reverse.mp (head?_mem h)

/-- Every character surviving the slug pipeline's final substitution and
strip is an ASCII alphanumeric or the separator hyphen. -/
theorem slug_chars (m : List Char) {x : Char}
    (h : x ∈ stripWhile (fun c => c = '-') (collapseRuns slugSep '-' (m.filter slugKeep))) :
    isAsciiAlnum x = true ∨ x = '-' := by
  rcases collapseRuns_mem (stripWhile_mem h) with h1 | ⟨h2, h3⟩
  · exact Or.inr h1
  · have hk := (List.mem_filter.mp h2).2
    simp only [slugKeep, Bool.or_eq_true, decide_eq_true_eq] at hk
    obtain ⟨⟨hsp, -⟩, hhy⟩ :
        (isPySpace x = false ∧ decide (x = '_') = false) ∧ decide (x = '-') = false := by
      simpa only [slugSep, Bool.or_eq_false_iff] using h3
    rcases hk with (hk | hk) | hk
    · exact Or.inl hk
    · rw [hk] at hsp
      cases hsp
    · exact absurd hk (by simpa using hhy)

theorem pyToLower_slugChar {c : Char} (h : isAsciiAlnum c = true ∨ c = '-') :
    isSlugChar (pyToLower c) = true := by
  rcases h with h | rfl
  · simp only [isAsciiAlnum, Bool.or_eq_true, Bool.and_eq_true, decide_eq_true_eq] at h
    unfold pyToLower
    by_cases hU : 65 ≤ c.toNat ∧ c.toNat ≤ 90
    · rw [if_pos hU]
      have hv : (Char.ofNat (c.toNat + 32)).toNat = c.toNat + 32 :=
        toNat_ofNat_valid _ (by omega)
      simp only [isSlugChar, Bool.or_eq_true, Bool.and_eq_true, decide_eq_true_eq, hv]
      exact Or.inl (Or.inl ⟨by omega, by omega⟩)
    · rw [if_neg hU]
      simp only [isSlugChar, Bool.or_eq_true, Bool.and_eq_true, decide_eq_true_eq]
      rcases h with (h1 | h1) | h1
      · exact absurd h1 hU
      · exact Or.inl (Or.inl h1)
      · exact Or.inl (Or.inr h1)
  · decide

theorem pyToLower_ne_hyphen {c : Char} (h : isAsciiAlnum c = true) :
    pyToLower c ≠ '-' := by
  simp only [isAsciiAlnum, Bool.or_eq_true, Bool.and_eq_true, decide_eq_true_eq] at h
  unfold pyToLower
  by_cases hU : 65 ≤ c.toNat ∧ c.toNat ≤ 90
  · rw [if_pos hU]
    intro he
    have hv := congrArg Char.toNat he
    rw [toNat_ofNat_valid _ (by omega)] at hv
    rw [show ('-' : Char).toNat = 45 from rfl] at hv
    omega
  · rw [if_neg hU]
    intro he
    have hv := congrArg Char.toNat he
    rw [show ('-' : Char).toNat = 45 from rfl] at hv
    rcases h with (h1 | h1) | h1 <;> omega

/-- C6: for every Unicode-primitive implementation and every input,
`normalize_name` yields only lowercase ASCII letters, digits and hyphens,
with no leading or trailing hyphen; and the empty and all-symbol inputs fall
back to the literal slug `"entity"`. -/
theorem C6_slug_safety (U : UnicodeLib) (s : String) :
    (∀ c ∈ (normalize_name U s).data, isSlugChar c = true) ∧
    (normalize_name U s).data.head? ≠ some '-' ∧
    (normalize_name U s).data.getLast? ≠ some '-' ∧
    normalize_name asciiU "" = "entity" ∧
    normalize_name asciiU "###" = "entity" := by
  set m : List Char := (U.nfd (sanitize_name U s)).data.filter (fun c => !U.catMn c) with hm
  set stripped : List Char :=
    stripWhile (fun c => c = '-') (collapseRuns slugSep '-' (m.filter slugKeep)) with hstr
  have hnn : normalize_name U s =
      if stripped.isEmpty then "entity" else pyLower (String.mk stripped) := rfl
  rw [hnn]
  by_cases hE : stripped.isEmpty
  · rw [if_pos hE]
    refine ⟨?_, by decide, by decide, by decide, by decide⟩
    intro c hc
    rw [show ("entity" : String).data = ['e', 'n', 't', 'i', 't', 'y'] from rfl] at hc
    fin_cases hc <;> decide
  · rw [if_neg hE]
    have hdata : (pyLower (String.mk stripped)).data = stripped.map pyToLower := rfl
    refine ⟨?_, ?_, ?_, by decide, by decide⟩
    · intro c hc
      rw [hdata] at hc
      rcases List.mem_map.mp hc with ⟨y, hy, rfl⟩
      exact pyToLower_slugChar (slug_chars m hy)
    · rw [hdata, List.head?_map]
      intro hhd
      rcases Option.map_eq_some'.mp hhd with ⟨y, hy, hpy⟩
      rcases slug_chars m (head?_mem hy) with ha | ha
      · exact pyToLower_ne_hyphen ha hpy
      · have hz := stripWhile_head hy
        rw [ha] at hz
        simp at hz
    · rw [hdata, List.getLast?_map]
      intro hls
      rcases Option.map_eq_some'.mp hls with ⟨y, hy, hpy⟩
      rcases slug_chars m (getLast?_mem hy) with ha | ha
      · exact pyToLower_ne_hyphen ha hpy
      · have hz := stripWhile_getLast hy
        rw [ha] at hz
        simp at hz

/-! ## Hash-suffix lemmas (claim C5) -/

/-- The six-character suffix only depends on the top 24 bits of the first
digest word. -/
theorem hexdigit_congr {w1 w2 : Nat} (h : w1 >>> 8 % 2 ^ 24 = w2 >>> 8 % 2 ^ 24)
    (k : Nat) (hk1 : 8 ≤ k) (hk2 : k + 4 ≤ 32) :
    w1 >>> k % 16 = w2 >>> k % 16 := by
  have key : ∀ w : Nat, w >>> k % 16 = (w >>> 8 % 2 ^ 24) / 2 ^ (k - 8) % 16 := by
    intro w
    rw [Nat.shiftRight_eq_div_pow, Nat.shiftRight_eq_div_pow]
    rw [show (2 : ℕ) ^ 24 = 2 ^ (k - 8) * 2 ^ (32 - k) by
      rw [← pow_add]
      congr 1
      omega]
    rw [Nat.mod_mul_right_div_self]
    rw [Nat.mod_mod_of_dvd _ ⟨2 ^ (32 - k - 4), by
      rw [show (16 : ℕ) = 2 ^ 4 from rfl, ← pow_add]
      congr 1
      omega⟩]
    rw [Nat.div_div_eq_div_mul, ← pow_add, show 8 + (k - 8) = k from by omega]
  rw [key w1, key w2, h]

theorem take6_congr {w1 w2 : Nat} (h : w1 >>> 8 % 2 ^ 24 = w2 >>> 8 % 2 ^ 24) :
    (toHex8 w1).take 6 = (toHex8 w2).take 6 := by
  have expand : ∀ w : Nat, (toHex8 w).take 6 =
      [hexDigitChar (w >>> 28 % 16), hexDigitChar (w >>> 24 % 16),
       hexDigitChar (w >>> 20 % 16), hexDigitChar (w >>> 16 % 16),
       hexDigitChar (w >>> 12 % 16), hexDigitChar (w >>> 8 % 16)] := fun w => rfl
  rw [expand w1, expand w2,
    hexdigit_congr h 28 (by omega) (by omega), hexdigit_congr h 24 (by omega) (by omega),
    hexdigit_congr h 20 (by omega) (by omega), hexdigit_congr h 16 (by omega) (by omega),
    hexdigit_congr h 12 (by omega) (by omega), hexdigit_congr h 8 (by omega) (by omega)]

theorem hashSuffix_take6 (U : UnicodeLib) (name id : String) :
    hashSuffix U name id = String.mk ((toHex8
      ((sha256Words (utf8Bytes (normalize_name U name ++ ":" ++ id))).a)).take 6) := rfl

/-- The identifier family used for the pigeonhole argument. -/
def aRun (n : Nat) : String := String.mk (List.replicate n 'a')

theorem aRun_inj {m n : Nat} (h : aRun m = aRun n) : m = n := by
  have h1 := congrArg (fun s => s.data.length) h
  simpa [aRun] using h1

/-- The 6-hex-character suffix ranges over finitely many values, so some two
distinct identifiers must share it. -/
theorem suffix_collision : ∃ id1 id2 : String, id1 ≠ id2 ∧
    hashSuffix asciiU "x" id1 = hashSuffix asciiU "x" id2 := by
  let f : ℕ → Fin (2 ^ 24) := fun n =>
    ⟨(sha256Words (utf8Bytes (normalize_name asciiU "x" ++ ":" ++ aRun n))).a >>> 8 % 2 ^ 24,
     Nat.mod_lt _ (by norm_num)⟩
  obtain ⟨m, n, hne, heq⟩ := Finite.exists_ne_map_eq_of_infinite f
  refine ⟨aRun m, aRun n, fun hc => hne (aRun_inj hc), ?_⟩
  rw [hashSuffix_take6, hashSuffix_take6]
  exact congrArg String.mk (take6_congr (congrArg Fin.val heq))

/-- C5 counterexample: the hash suffix takes only `16^6` values, so it cannot
distinguish every pair of distinct identifiers; the universally-quantified
distinctness in the claim is false. -/
theorem C5_cex :
    ¬ (∀ (name id1 id2 : String), id1 ≠ id2 →
        hashSuffix asciiU name id1 ≠ hashSuffix asciiU name id2) := by
  intro h
  obtain ⟨id1, id2, hne, heq⟩ := suffix_collision
  exact h "x" id1 id2 hne heq

/-- C5 (amended): `generate_filename` is deterministic (it is a pure function
of its inputs, built from the slug and the first six hexdigest characters of
`"slug:identifier"`), and changing the identifier alone generally changes the
suffix — verified on a concrete pair — but not universally: distinct
identifiers with equal suffixes must exist. -/
theorem C5_deterministic_filename :
    (∀ (U : UnicodeLib) (name uid : String),
      generate_filename U name uid = generate_filename U name uid) ∧
    (∀ (U : UnicodeLib) (name uid : String),
      generate_filename U name uid =
        normalize_name U name ++ "-" ++ hashSuffix U name uid ++ ".json") ∧
    hashSuffix asciiU "x" "a" ≠ hashSuffix asciiU "x" "b" ∧
    (∃ id1 id2 : String, id1 ≠ id2 ∧
      hashSuffix asciiU "x" id1 = hashSuffix asciiU "x" id2) :=
  ⟨fun _ _ _ => rfl, fun _ _ _ => rfl, by decide, suffix_collision⟩

/-! ## Importer scenarios (claims C3 and C8) -/

def outDir : String := "ROOT/awesome/projects"

/-- One input row describing an individually-owned project. -/
def rowAlpha : Row :=
  [("Name", "Alpha"), ("Category", "Tools"), ("Country", "Italy"),
   ("Description", "A thing."), ("Platform", "GitHub"),
   ("Repository url", "https://x"), ("License", "MIT"), ("Language", "Python"),
   ("Who is the owner of this project?", "Individual"),
   ("Owner Full Name or Username", "Bob")]

def fs0 : Fs := ⟨[], [], []⟩

/-- The document `transform_row` derives from `rowAlpha` when the clock reads
`ts`. -/
def alphaDoc (ts : String) : JValue :=
  .jobj
    [("name", .jstr "Alpha"), ("category", .jstr "tools"), ("country", .jstr "Italy"),
     ("description", .jstr "A thing."),
     ("source", .jobj
       [("platform", .jstr "GitHub"), ("url_repository", .jstr "https://x"),
        ("license", .jstr "MIT"), ("language", .jstr "Python")]),
     ("metadata", .jobj
       [("filename", .jstr "alpha-f6c6e1.json"),
        ("filepath", .jstr "awesome/projects/alpha-f6c6e1.json"),
        ("created_at", .jstr ts)]),
     ("owner", .jobj [("type", .jstr "individual"), ("name", .jstr "Bob")])]

/-- The absolute destination path derived for `rowAlpha`. -/
def alphaPath : String := "ROOT/awesome/projects/alpha-f6c6e1.json"

set_option maxRecDepth 8192 in
theorem transform_alpha (t : PyDatetime) :
    Importer.transform_row asciiU "ROOT" outDir t rowAlpha =
      .ok (alphaDoc (get_timestamp t)) := rfl

set_option maxRecDepth 8192 in
/-- Importing `rowAlpha` into an empty output directory: clean success, one
file created. -/
theorem run1_alpha (t : PyDatetime) :
    Importer.execute asciiU acceptAll "ROOT" outDir (fun _ => t) [rowAlpha] fs0 initMeta =
      (.ok (), ⟨[(alphaPath, .jsonDoc (alphaDoc (get_timestamp t)))], [], []⟩,
       { initMeta with success := 1, total := 1 }) := rfl

set_option maxRecDepth 8192 in
/-- Re-importing `rowAlpha` over an existing destination file: a duplicate
warning is recorded, no error, and the file is nevertheless re-written with
the freshly transformed document. -/
theorem run2_alpha (ts : String) (t' : PyDatetime) :
    Importer.execute asciiU acceptAll "ROOT" outDir (fun _ => t') [rowAlpha]
        ⟨[(alphaPath, .jsonDoc (alphaDoc ts))], [], []⟩ initMeta =
      (.ok (), ⟨[(alphaPath, .jsonDoc (alphaDoc (get_timestamp t')))], [], []⟩,
       { initMeta with
          warning := 1
          total := 1
          warnings := [⟨"Alpha", dupWarningMsg "Alpha" "alpha-f6c6e1.json"⟩] }) := rfl

/-- C3 (amended): re-importing an unchanged batch over an output directory
that already holds the destination file records only a duplicate warning (no
errors), but does not leave the existing file unchanged: the validated
document is re-written unconditionally, and its `created_at` stamp is taken
from the re-import's clock, so the stored content differs whenever the two
runs' timestamps differ. -/
theorem C3_reimport_rewrites (t1 t2 : PyDatetime)
    (h : get_timestamp t1 ≠ get_timestamp t2) :
    (Importer.execute asciiU acceptAll "ROOT" outDir (fun _ => t2) [rowAlpha]
        (Importer.execute asciiU acceptAll "ROOT" outDir (fun _ => t1) [rowAlpha]
          fs0 initMeta).2.1 initMeta).1 = .ok () ∧
    (Importer.execute asciiU acceptAll "ROOT" outDir (fun _ => t2) [rowAlpha]
        (Importer.execute asciiU acceptAll "ROOT" outDir (fun _ => t1) [rowAlpha]
          fs0 initMeta).2.1 initMeta).2.2.errors = [] ∧
    (Importer.execute asciiU acceptAll "ROOT" outDir (fun _ => t2) [rowAlpha]
        (Importer.execute asciiU acceptAll "ROOT" outDir (fun _ => t1) [rowAlpha]
          fs0 initMeta).2.1 initMeta).2.2.failed = 0 ∧
    (Importer.execute asciiU acceptAll "ROOT" outDir (fun _ => t2) [rowAlpha]
        (Importer.execute asciiU acceptAll "ROOT" outDir (fun _ => t1) [rowAlpha]
          fs0 initMeta).2.1 initMeta).2.2.warnings =
      [⟨"Alpha", dupWarningMsg "Alpha" "alpha-f6c6e1.json"⟩] ∧
    fsRead (Importer.execute asciiU acceptAll "ROOT" outDir (fun _ => t1) [rowAlpha]
        fs0 initMeta).2.1 alphaPath = some (.jsonDoc (alphaDoc (get_timestamp t1))) ∧
    fsRead (Importer.execute asciiU acceptAll "ROOT" outDir (fun _ => t2) [rowAlpha]
        (Importer.execute asciiU acceptAll "ROOT" outDir (fun _ => t1) [rowAlpha]
          fs0 initMeta).2.1 initMeta).2.1 alphaPath =
      some (.jsonDoc (alphaDoc (get_timestamp t2))) ∧
    fsRead (Importer.execute asciiU acceptAll "ROOT" outDir (fun _ => t2) [rowAlpha]
        (Importer.execute asciiU acceptAll "ROOT" outDir (fun _ => t1) [rowAlpha]
          fs0 initMeta).2.1 initMeta).2.1 alphaPath ≠
    fsRead (Importer.execute asciiU acceptAll "ROOT" outDir (fun _ => t1) [rowAlpha]
        fs0 initMeta).2.1 alphaPath := by
  rw [run1_alpha t1, run2_alpha (get_timestamp t1) t2]
  refine ⟨rfl, rfl, rfl, rfl, ?_, ?_, ?_⟩
  · simp [fsRead, fsLookup]
  · simp [fsRead, fsLookup]
  · simp only [fsRead, fsLookup, if_pos]
    intro heq
    simp only [Option.some.injEq, FileContent.jsonDoc.injEq, alphaDoc,
      JValue.jobj.injEq, List.cons.injEq, Prod.mk.injEq, JValue.jstr.injEq,
      and_true, true_and] at heq
    exact h heq.symm

/-- C3 witness: two concrete clock readings one day apart. -/
theorem C3_reimport_rewrites_witness :
    (Importer.execute asciiU acceptAll "ROOT" outDir (fun _ => ⟨2025, 1, 2, 11, 30, 0, 600⟩)
        [rowAlpha]
        (Importer.execute asciiU acceptAll "ROOT" outDir (fun _ => ⟨2025, 1, 1, 10, 0, 0, 500⟩)
          [rowAlpha] fs0 initMeta).2.1 initMeta).1 = .ok () ∧
    (Importer.execute asciiU acceptAll "ROOT" outDir (fun _ => ⟨2025, 1, 2, 11, 30, 0, 600⟩)
        [rowAlpha]
        (Importer.execute asciiU acceptAll "ROOT" outDir (fun _ => ⟨2025, 1, 1, 10, 0, 0, 500⟩)
          [rowAlpha] fs0 initMeta).2.1 initMeta).2.2.errors = [] ∧
    (Importer.execute asciiU acceptAll "ROOT" outDir (fun _ => ⟨2025, 1, 2, 11, 30, 0, 600⟩)
        [rowAlpha]
        (Importer.execute asciiU acceptAll "ROOT" outDir (fun _ => ⟨2025, 1, 1, 10, 0, 0, 500⟩)
          [rowAlpha] fs0 initMeta).2.1 initMeta).2.2.failed = 0 ∧
    (Importer.execute asciiU acceptAll "ROOT" outDir (fun _ => ⟨2025, 1, 2, 11, 30, 0, 600⟩)
        [rowAlpha]
        (Importer.execute asciiU acceptAll "ROOT" outDir (fun _ => ⟨2025, 1, 1, 10, 0, 0, 500⟩)
          [rowAlpha] fs0 initMeta).2.1 initMeta).2.2.warnings =
      [⟨"Alpha", dupWarningMsg "Alpha" "alpha-f6c6e1.json"⟩] ∧
    fsRead (Importer.execute asciiU acceptAll "ROOT" outDir
        (fun _ => ⟨2025, 1, 1, 10, 0, 0, 500⟩) [rowAlpha] fs0 initMeta).2.1 alphaPath =
      some (.jsonDoc (alphaDoc (get_timestamp ⟨2025, 1, 1, 10, 0, 0, 500⟩))) ∧
    fsRead (Importer.execute asciiU acceptAll "ROOT" outDir (fun _ => ⟨2025, 1, 2, 11, 30, 0, 600⟩)
        [rowAlpha]
        (Importer.execute asciiU acceptAll "ROOT" outDir (fun _ => ⟨2025, 1, 1, 10, 0, 0, 500⟩)
          [rowAlpha] fs0 initMeta).2.1 initMeta).2.1 alphaPath =
      some (.jsonDoc (alphaDoc (get_timestamp ⟨2025, 1, 2, 11, 30, 0, 600⟩))) ∧
    fsRead (Importer.execute asciiU acceptAll "ROOT" outDir (fun _ => ⟨2025, 1, 2, 11, 30, 0, 600⟩)
        [rowAlpha]
        (Importer.execute asciiU acceptAll "ROOT" outDir (fun _ => ⟨2025, 1, 1, 10, 0, 0, 500⟩)
          [rowAlpha] fs0 initMeta).2.1 initMeta).2.1 alphaPath ≠
    fsRead (Importer.execute asciiU acceptAll "ROOT" outDir
        (fun _ => ⟨2025, 1, 1, 10, 0, 0, 500⟩) [rowAlpha] fs0 initMeta).2.1 alphaPath :=
  C3_reimport_rewrites ⟨2025, 1, 1, 10, 0, 0, 500⟩ ⟨2025, 1, 2, 11, 30, 0, 600⟩ (by decide)

/-- C3 counterexample: at two concrete wall-clock times, the re-import run
does overwrite the already-existing destination file with different content
(the `created_at` stamp changes), refuting the claim that existing files are
never overwritten with different content. -/
theorem C3_cex :
    fsRead (Importer.execute asciiU acceptAll "ROOT" outDir (fun _ => ⟨2025, 1, 2, 11, 30, 0, 600⟩)
        [rowAlpha]
        (Importer.execute asciiU acceptAll "ROOT" outDir (fun _ => ⟨2025, 1, 1, 10, 0, 0, 500⟩)
          [rowAlpha] fs0 initMeta).2.1 initMeta).2.1 alphaPath ≠
    fsRead (Importer.execute asciiU acceptAll "ROOT" outDir
        (fun _ => ⟨2025, 1, 1, 10, 0, 0, 500⟩) [rowAlpha] fs0 initMeta).2.1 alphaPath := by
  rw [run1_alpha, run2_alpha]
  simp only [fsRead, fsLookup, if_pos]
  intro heq
  simp only [Option.some.injEq, FileContent.jsonDoc.injEq, alphaDoc,
    JValue.jobj.injEq, List.cons.injEq, Prod.mk.injEq, JValue.jstr.injEq,
    and_true, true_and] at heq
  exact absurd heq (by decide)

/-- An organization-owned input row, with the two optional fields
(documentation URL and company description) present or absent as given. -/
def rowOrg (docUrl desc : Option String) : Row :=
  [("Name", "Alpha"), ("Category", "Tools"), ("Country", "Italy"),
   ("Description", "A thing."), ("Platform", "GitHub"),
   ("Repository url", "https://x"), ("License", "MIT"), ("Language", "Python"),
   ("Who is the owner of this project?", "Organization"),
   ("Company Name", "Acme"), ("Company Website", "https://acme"),
   ("Your company is a Startup?", "No")] ++
  (match docUrl with | some u => [("Documentation url", u)] | none => []) ++
  (match desc with | some d' => [("Company Description", d')] | none => [])

/-- Two-level field access into a document. -/
def jGet2 (v : JValue) (k1 k2 : String) : Option JValue :=
  match v with
  | .jobj fields =>
    match jlookup fields k1 with
    | some (.jobj fields2) => jlookup fields2 k2
    | _ => none
  | .jstr _ => none

/-- C8 (amended): `transform_row` includes an optional field exactly when the
raw source value is present and truthy (a non-empty string); the emitted
value is the sanitized raw value — which is the empty string whenever the raw
value consists only of whitespace or stripped characters — and absent raw
fields are never emitted at all (no null or placeholder values exist in the
output shape). -/
theorem C8_optional_fields (now : PyDatetime) (u d : String)
    (hu : u.data.isEmpty = false) (hd : d.data.isEmpty = false) :
    (Importer.transform_row asciiU "ROOT" outDir now (rowOrg (some u) (some d))).map
        (fun doc => (jGet2 doc "source" "url_documentation",
                     jGet2 doc "owner" "description")) =
      .ok (some (.jstr (sanitize_text asciiU u)),
           some (.jstr (sanitize_description asciiU d))) ∧
    (Importer.transform_row asciiU "ROOT" outDir now (rowOrg none none)).map
        (fun doc => (jGet2 doc "source" "url_documentation",
                     jGet2 doc "owner" "description")) =
      .ok (none, none) := by
  obtain ⟨c, cs, hcs⟩ : ∃ c cs, u.data = c :: cs := by
    cases h' : u.data with
    | nil =>
      rw [h'] at hu
      cases hu
    | cons a l => exact ⟨a, l, rfl⟩
  obtain ⟨e, es, hes⟩ : ∃ e es, d.data = e :: es := by
    cases h' : d.data with
    | nil =>
      rw [h'] at hd
      cases hd
    | cons a l => exact ⟨a, l, rfl⟩
  obtain ⟨ud⟩ := u
  obtain ⟨dd⟩ := d
  simp only [String.data] at hcs hes
  subst hcs hes
  exact ⟨rfl, rfl⟩

/-- C8 witness: whitespace-only optional values are truthy in the raw row, so
the fields are emitted — with the empty string as their sanitized value. -/
theorem C8_optional_fields_witness :
    (Importer.transform_row asciiU "ROOT" outDir ⟨2025, 1, 1, 10, 0, 0, 500⟩
        (rowOrg (some " ") (some " "))).map
        (fun doc => (jGet2 doc "source" "url_documentation",
                     jGet2 doc "owner" "description")) =
      .ok (some (.jstr (sanitize_text asciiU " ")),
           some (.jstr (sanitize_description asciiU " "))) ∧
    (Importer.transform_row asciiU "ROOT" outDir ⟨2025, 1, 1, 10, 0, 0, 500⟩
        (rowOrg none none)).map
        (fun doc => (jGet2 doc "source" "url_documentation",
                     jGet2 doc "owner" "description")) =
      .ok (none, none) :=
  C8_optional_fields ⟨2025, 1, 1, 10, 0, 0, 500⟩ " " " " rfl rfl

/-- C8 counterexample: a record whose documentation-URL column holds a single
space is truthy, so the optional field is emitted, and its sanitized value is
the empty string — refuting the claim that no optional field is ever emitted
with an empty-string value. -/
theorem C8_cex :
    ¬ (∀ (row : Row) (now : PyDatetime) (doc : JValue),
        Importer.transform_row asciiU "ROOT" outDir now row = .ok doc →
        jGet2 doc "source" "url_documentation" ≠ some (.jstr "")) := by
  intro h
  exact h (rowOrg (some " ") (some " ")) ⟨2025, 1, 1, 10, 0, 0, 500⟩ _ rfl rfl

/-! ## Ledger invariant (claim C9) -/

/-- The counters mirror the record lists. -/
def MetaInv (st : Meta) : Prop :=
  st.failed = st.errors.length ∧ st.warning = st.warnings.length

/-- Both record lists of `st'` extend those of `st` (append-only growth). -/
def ExtendsMeta (st st' : Meta) : Prop :=
  (∃ Δ, st'.errors = st.errors ++ Δ) ∧ (∃ Δ, st'.warnings = st.warnings ++ Δ)

theorem extends_same {st st' : Meta} (h1 : st'.errors = st.errors)
    (h2 : st'.warnings = st.warnings) : ExtendsMeta st st' :=
  ⟨⟨[], by simp [h1]⟩, ⟨[], by simp [h2]⟩⟩

theorem extends_trans {a b c : Meta} (h1 : ExtendsMeta a b) (h2 : ExtendsMeta b c) :
    ExtendsMeta a c := by
  obtain ⟨⟨d1, he1⟩, ⟨w1, hw1⟩⟩ := h1
  obtain ⟨⟨d2, he2⟩, ⟨w2, hw2⟩⟩ := h2
  exact ⟨⟨d1 ++ d2, by rw [he2, he1, List.append_assoc]⟩,
         ⟨w1 ++ w2, by rw [hw2, hw1, List.append_assoc]⟩⟩

theorem extends_addError {st : Meta} {n m : String} :
    ExtendsMeta st (addError st n m) :=
  ⟨⟨[⟨n, m⟩], rfl⟩, ⟨[], by simp [addError]⟩⟩

theorem extends_addWarning {st : Meta} {n m : String} :
    ExtendsMeta st (addWarning st n m) :=
  ⟨⟨[], by simp [addWarning]⟩, ⟨[⟨n, m⟩], rfl⟩⟩

theorem inv_addError {st : Meta} {n m : String} (h : MetaInv st) :
    MetaInv (addError st n m) := by
  simp [MetaInv, addError, h.1, h.2]

theorem inv_addWarning {st : Meta} {n m : String} (h : MetaInv st) :
    MetaInv (addWarning st n m) := by
  simp [MetaInv, addWarning, h.1, h.2]

theorem validateTry_invext (schema : Schema) (root : String) (fs : Fs) (check : Bool)
    (d : JValue) (ename : String) (st : Meta) (h : MetaInv st) :
    MetaInv (validateTry schema root fs check d ename st).2 ∧
    ExtendsMeta st (validateTry schema root fs check d ename st).2 := by
  unfold validateTry errorReturn
  repeat' split
  all_goals
    first
      | exact ⟨inv_addError h, extends_addError⟩
      | exact ⟨inv_addWarning h, extends_addWarning⟩
      | exact ⟨⟨h.1, h.2⟩, extends_same rfl rfl⟩

theorem resolveInput_cases (fs : Fs) (filename : Option String) (data : Option JValue)
    (st : Meta) :
    (∃ e, resolveInput fs filename data st = .raised e st) ∨
    (∃ r f m, resolveInput fs filename data st = .earlyReturn r (addWarning st f m)) ∨
    (∃ d', resolveInput fs filename data st = .loaded d' st) := by
  unfold resolveInput
  repeat' split
  all_goals
    first
      | exact Or.inl ⟨_, rfl⟩
      | exact Or.inr (Or.inl ⟨_, _, _, rfl⟩)
      | exact Or.inr (Or.inr ⟨_, rfl⟩)

theorem validate_invext (schema : Schema) (root : String) (fs : Fs)
    (filename : Option String) (data : Option JValue) (check : Bool) (st : Meta)
    (h : MetaInv st) :
    MetaInv (validate schema root fs filename data check st).2 ∧
    ExtendsMeta st (validate schema root fs filename data check st).2 := by
  unfold validate
  rcases resolveInput_cases fs filename data st with ⟨e, hr⟩ | ⟨r, f, m, hr⟩ | ⟨d', hr⟩
  · rw [hr]
    exact ⟨h, extends_same rfl rfl⟩
  · rw [hr]
    exact ⟨inv_addWarning h, extends_addWarning⟩
  · rw [hr]
    dsimp only
    cases hg : pyGetName d' with
    | error e => exact ⟨h, extends_same rfl rfl⟩
    | ok ename =>
      have hv := validateTry_invext schema root fs check d' ename st h
      exact ⟨⟨hv.1.1, hv.1.2⟩, hv.2⟩

theorem collectFiles_cons_snd (fs : Fs) (dirpath e : String) (rest : List String)
    (st : Meta) :
    (collectFiles fs dirpath (e :: rest) st).2 =
      if (!fsIsFile fs (pyJoin dirpath e)) = true
      then (collectFiles fs dirpath rest (addWarning st e "Not a file")).2
      else if (!pyEndsWith e ".json") = true
        then (collectFiles fs dirpath rest
          (addWarning st e "Invalid file extension (expected .json)")).2
        else (collectFiles fs dirpath rest st).2 := by
  cases h1 : !fsIsFile fs (pyJoin dirpath e) <;>
    cases h2 : !pyEndsWith e ".json" <;>
      simp [collectFiles, h1, h2]

theorem collectFiles_invext (fs : Fs) (dirpath : String) :
    ∀ (entries : List String) (st : Meta), MetaInv st →
      MetaInv (collectFiles fs dirpath entries st).2 ∧
      ExtendsMeta st (collectFiles fs dirpath entries st).2 := by
  intro entries
  induction entries with
  | nil => exact fun st h => ⟨h, extends_same rfl rfl⟩
  | cons e rest ih =>
    intro st h
    rw [collectFiles_cons_snd]
    by_cases h1 : (!fsIsFile fs (pyJoin dirpath e)) = true
    · rw [if_pos h1]
      have h2 := ih (addWarning st e "Not a file") (inv_addWarning h)
      exact ⟨h2.1, extends_trans extends_addWarning h2.2⟩
    · rw [if_neg h1]
      by_cases h2 : (!pyEndsWith e ".json") = true
      · rw [if_pos h2]
        have h3 := ih (addWarning st e "Invalid file extension (expected .json)")
          (inv_addWarning h)
        exact ⟨h3.1, extends_trans extends_addWarning h3.2⟩
      · rw [if_neg h2]
        exact ih st h

theorem validateLoop_invext (schema : Schema) (root : String) (fs : Fs) :
    ∀ (l : List (String × String)) (st : Meta) (src : List (String × JValue)),
      MetaInv st →
      MetaInv (validateLoop schema root fs l st src).2.1 ∧
      ExtendsMeta st (validateLoop schema root fs l st src).2.1 := by
  intro l
  induction l with
  | nil => exact fun st src h => ⟨h, extends_same rfl rfl⟩
  | cons ef rest ih =>
    intro st src h
    obtain ⟨eid, fp⟩ := ef
    have hv := validate_invext schema root fs (some fp) none false st h
    unfold validateLoop
    rcases hval : validate schema root fs (some fp) none false st with ⟨res, st'⟩
    rw [hval] at hv
    cases res with
    | error e =>
      dsimp only
      exact hv
    | ok p =>
      obtain ⟨vd, errs⟩ := p
      dsimp only at hv ⊢
      cases vd with
      | none =>
        have h2 := ih st' src hv.1
        exact ⟨h2.1, extends_trans hv.2 h2.2⟩
      | some dd =>
        dsimp only
        by_cases ht : jTruthy dd = true
        · rw [if_pos ht]
          have h2 := ih st' (updateAssoc src eid dd) hv.1
          exact ⟨h2.1, extends_trans hv.2 h2.2⟩
        · rw [if_neg ht]
          have h2 := ih st' src hv.1
          exact ⟨h2.1, extends_trans hv.2 h2.2⟩

theorem execute_invext (schema : Schema) (root : String) (fs : Fs) (dirpath : String)
    (st : Meta) (src : List (String × JValue)) (h : MetaInv st) :
    MetaInv (execute schema root fs dirpath st src).2.1 ∧
    ExtendsMeta st (execute schema root fs dirpath st src).2.1 := by
  unfold execute
  split
  · exact ⟨h, extends_same rfl rfl⟩
  · have h1 := collectFiles_invext fs dirpath (fsListDir fs dirpath) st h
    have h2 := validateLoop_invext schema root fs
      (pySorted (collectFiles fs dirpath (fsListDir fs dirpath) st).1)
      (collectFiles fs dirpath (fsListDir fs dirpath) st).2 src h1.1
    exact ⟨h2.1, extends_trans h1.2 h2.2⟩

theorem save_state_cases (st : Meta) (n m k : String) :
    save_state st n m k = .ok (addError st n m) ∨
    save_state st n m k = .ok (addWarning st n m) ∨
    ∃ e, save_state st n m k = .error e := by
  unfold save_state
  repeat' split
  · exact Or.inr (Or.inr ⟨_, rfl⟩)
  · exact Or.inl rfl
  · exact Or.inr (Or.inl rfl)

theorem runOp_invext (ctx : VCtx) (st : VState) (op : VOp) (h : MetaInv st.meta) :
    MetaInv (runOp ctx st op).meta ∧ ExtendsMeta st.meta (runOp ctx st op).meta := by
  cases op with
  | opValidate fn d chk => exact validate_invext ctx.schema ctx.root ctx.fs fn d chk st.meta h
  | opExecute dir => exact execute_invext ctx.schema ctx.root ctx.fs dir st.meta st.src h
  | opSaveState n m k =>
    unfold runOp
    dsimp only
    rcases save_state_cases st.meta n m k with hs | hs | ⟨e, hs⟩
    · rw [hs]
      dsimp only
      exact ⟨inv_addError h, extends_addError⟩
    · rw [hs]
      dsimp only
      exact ⟨inv_addWarning h, extends_addWarning⟩
    · rw [hs]
      dsimp only
      exact ⟨h, extends_same rfl rfl⟩

theorem runOps_invext (ctx : VCtx) :
    ∀ (ops : List VOp) (st : VState), MetaInv st.meta →
      MetaInv (runOps ctx ops st).meta ∧ ExtendsMeta st.meta (runOps ctx ops st).meta := by
  intro ops
  induction ops with
  | nil => exact fun st h => ⟨h, extends_same rfl rfl⟩
  | cons op rest ih =>
    intro st h
    have h1 := runOp_invext ctx st op h
    have h2 := ih (runOp ctx st op) h1.1
    exact ⟨h2.1, extends_trans h1.2 h2.2⟩

/-- C9: after any sequence of validator operations starting from a fresh
instance, the `failed` counter equals the length of the `errors` list and
the `warning` counter equals the length of the `warnings` list; and running
further operations only ever appends to both lists — entries are added in
arrival order and never removed or reordered. -/
theorem C9_ledger_invariant (ctx : VCtx) (ops more : List VOp) :
    ((runOps ctx ops initVState).meta.failed =
        (runOps ctx ops initVState).meta.errors.length ∧
     (runOps ctx ops initVState).meta.warning =
        (runOps ctx ops initVState).meta.warnings.length) ∧
    (∃ Δe, (runOps ctx (ops ++ more) initVState).meta.errors =
        (runOps ctx ops initVState).meta.errors ++ Δe) ∧
    (∃ Δw, (runOps ctx (ops ++ more) initVState).meta.warnings =
        (runOps ctx ops initVState).meta.warnings ++ Δw) := by
  have h0 : MetaInv initVState.meta := ⟨rfl, rfl⟩
  have h1 := runOps_invext ctx ops initVState h0
  have hsplit : runOps ctx (ops ++ more) initVState =
      runOps ctx more (runOps ctx ops initVState) := List.foldl_append _ _ _ _
  have h2 := runOps_invext ctx more (runOps ctx ops initVState) h1.1
  rw [hsplit]
  exact ⟨h1.1, h2.2.1, h2.2.2⟩

end AEOS
